import Mathlib

/-!
Verification of `src/archive/transforms.py` (fair-mast-ingestion).

This file shallowly embeds the data model (xarray-style labeled datasets)
and the transform classes of `transforms.py` into Lean, and proves or
refutes the specification claims about them.

Modelling conventions:
* An xarray `Dataset` is a pair of ordered association lists
  (`data_vars`, `coords`) from variable name to `Variable`, plus an
  ordered association list of attributes.  Python dicts preserve
  insertion order, which the association lists mirror.
* A `Variable` is a flattened (row-major) list of values together with
  its ordered dimension-name list and shape.
* Numeric array payloads are modelled as exact integers (`Val.i`), and
  string-valued coordinate labels as `Val.s`; the transforms under
  verification only move, rename, stack and compare values to zero,
  never perform arithmetic on them.
* Fallible operations (xarray raising `ValueError`/`KeyError`/
  `MergeError`/`TypeError`) are modelled with `Except String`.
-/

/-- A single array element: an exact number or a string label.
Comparing a string label to `0` is `False`, matching numpy semantics of
`values == 0` on non-numeric data. -/
inductive Val where
  | i : Int → Val
  | s : String → Val
deriving DecidableEq, Repr

/-- Whether a value compares equal to zero (numpy `values == 0`). -/
def Val.isZero : Val → Bool
  | .i n => n == 0
  | .s _ => false

/-- A dataset attribute value: the attributes used by `transforms.py` are
the string `name` and the string-list `dims`. -/
inductive AttrVal where
  | str : String → AttrVal
  | strList : List String → AttrVal
deriving DecidableEq, Repr

/-- First-match lookup in an ordered association list (Python dict read). -/
def lookupL : List (String × α) → String → Option α
  | [], _ => none
  | p :: rest, k => if p.1 = k then some p.2 else lookupL rest k

/-- Python dict write: overwrite in place if the key exists (keeping its
position), otherwise append at the end. -/
def setL (l : List (String × α)) (k : String) (v : α) : List (String × α) :=
  if (lookupL l k).isSome then
    l.map (fun p => if p.1 = k then (k, v) else p)
  else
    l ++ [(k, v)]

/-- An xarray variable: dimension names, shape and row-major flattened data,
plus per-variable attributes. -/
structure Variable where
  dims : List String
  shape : List Nat
  data : List Val
  attrs : List (String × AttrVal)
deriving DecidableEq, Repr

/-- The (dimension, size) pairs of one variable. -/
def Variable.dimSizes (v : Variable) : List (String × Nat) :=
  v.dims.zip v.shape

/-- An xarray dataset: named data variables, named coordinate variables and
dataset-level attributes, all in insertion order. -/
structure Dataset where
  data_vars : List (String × Variable)
  coords : List (String × Variable)
  attrs : List (String × AttrVal)
deriving DecidableEq, Repr

/-- All variables of a dataset, data variables first (the order xarray
reports sizes in is immaterial to the claims below). -/
def Dataset.allVars (ds : Dataset) : List (String × Variable) :=
  ds.data_vars ++ ds.coords

/-- Every (dimension, size) pair occurring in the dataset, with
duplicates; a well-formed dataset repeats each dimension at one size. -/
def Dataset.dimsList (ds : Dataset) : List (String × Nat) :=
  ds.allVars.flatMap (fun p => p.2.dimSizes)

/-- The size of a named dimension (first occurrence). -/
def Dataset.dimLookup (ds : Dataset) (name : String) : Option Nat :=
  lookupL ds.dimsList name

/-- Whether the dataset has a dimension of the given name. -/
def Dataset.hasDim (ds : Dataset) (name : String) : Bool :=
  (ds.dimLookup name).isSome

/-- First occurrences of a list of names, in order. -/
def dedupNames (l : List String) : List String :=
  l.foldl (fun acc n => if acc.contains n then acc else acc ++ [n]) []

/-- The dataset's dimension names in order of first occurrence
(`dataset.sizes.keys()`). -/
def Dataset.dimNames (ds : Dataset) : List String :=
  dedupNames (ds.dimsList.map Prod.fst)

/-- All variable names (data variables and coordinates). -/
def Dataset.varNames (ds : Dataset) : List String :=
  ds.data_vars.map Prod.fst ++ ds.coords.map Prod.fst

/-- Dataset item access `dataset[key]`: data variables first, then
coordinates (`KeyError`, i.e. `none`, when absent). -/
def Dataset.getVar (ds : Dataset) (k : String) : Option Variable :=
  match lookupL ds.data_vars k with
  | some v => some v
  | none => lookupL ds.coords k

/-- Python `key in dataset`, which tests membership in `data_vars` only. -/
def Dataset.containsVar (ds : Dataset) (k : String) : Bool :=
  (lookupL ds.data_vars k).isSome

/-- Remove the named dimensions from one variable.  The flattened data is
unchanged, which is faithful when every removed dimension has size one
(the only way `squeeze` uses this). -/
def Variable.squeezeDims (killed : List String) (v : Variable) : Variable :=
  let kept := v.dimSizes.filter (fun p => !(killed.contains p.1))
  { v with dims := kept.map Prod.fst, shape := kept.map Prod.snd }

/-- xarray `Dataset.squeeze`: remove every dimension of size one from all
variables.  With `drop = false` a coordinate on a squeezed dimension is
kept as a lower-dimensional (possibly scalar) coordinate; with
`drop = true` (`squeeze(drop=True)`) a coordinate that loses all of its
dimensions to the squeeze is dropped instead. -/
def Dataset.squeeze (ds : Dataset) (drop : Bool) : Dataset :=
  let killed := (ds.dimsList.filter (fun p => p.2 == 1)).map Prod.fst
  let newCoords :=
    ds.coords.filterMap (fun p =>
      let v := p.2.squeezeDims killed
      if drop && v.dims.isEmpty && !p.2.dims.isEmpty then none
      else some (p.1, v))
  { data_vars := ds.data_vars.map (fun p => (p.1, p.2.squeezeDims killed)),
    coords := newCoords,
    attrs := ds.attrs }

/-- Apply a dimension-rename mapping to one dimension name. -/
def renameWith (m : List (String × String)) (d : String) : String :=
  match lookupL m d with
  | some n => n
  | none => d

/-- Rename dimensions inside one variable. -/
def Variable.renameDims (m : List (String × String)) (v : Variable) : Variable :=
  { v with dims := v.dims.map (renameWith m) }

/-- xarray `Dataset.rename_dims`: raises `ValueError` when some old name
is not a dimension of the dataset, and also when some new name already
exists as a dimension or as a variable of the dataset ("already exists,
try swap_dims"); otherwise renames that dimension in every variable
(variable names are untouched). -/
def Dataset.renameDims (ds : Dataset) (m : List (String × String)) :
    Except String Dataset :=
  if m.all (fun p => ds.hasDim p.1) then
    if m.all (fun p =>
        !(ds.hasDim p.2) && !((lookupL ds.data_vars p.2).isSome)
          && !((lookupL ds.coords p.2).isSome)) then
      .ok { data_vars := ds.data_vars.map (fun p => (p.1, p.2.renameDims m)),
            coords := ds.coords.map (fun p => (p.1, p.2.renameDims m)),
            attrs := ds.attrs }
    else
      .error "rename_dims: the new name already exists"
  else
    .error "rename_dims: not a dimension in this dataset"

/-- Rename the key `old` to `new` in an association list. -/
def renameKey (old new : String) (l : List (String × Variable)) :
    List (String × Variable) :=
  l.map (fun p => if p.1 = old then (new, p.2) else p)

/-- xarray `Dataset.rename_vars({old: new})` for a single entry; the guard
in `transforms.py` ensures `old` is present, so the model is total. -/
def Dataset.renameVars (ds : Dataset) (old new : String) : Dataset :=
  { ds with data_vars := renameKey old new ds.data_vars,
            coords := renameKey old new ds.coords }

/-- xarray `Dataset.rename(m)`: every key of `m` must be an existing
variable or dimension (`ValueError` otherwise); matching variable names
and dimension names are both renamed.  `_rename_vars` additionally
raises `ValueError("the new name ... conflicts")` when two variables
would end up under the same name — in particular when a rename target
collides with an existing, un-renamed variable or coordinate. -/
def Dataset.rename (ds : Dataset) (m : List (String × String)) :
    Except String Dataset :=
  if m.all (fun p => (ds.getVar p.1).isSome || ds.hasDim p.1) then
    if (ds.allVars.map (fun p => renameWith m p.1)).Nodup then
      .ok { data_vars := ds.data_vars.map
              (fun p => (renameWith m p.1, p.2.renameDims m)),
            coords := ds.coords.map
              (fun p => (renameWith m p.1, p.2.renameDims m)),
            attrs := ds.attrs }
    else
      .error "rename: the new name conflicts"
  else
    .error "rename: not a variable or dimension in this dataset"

/-- xarray `Dataset.drop_vars`: remove the named variables (data variables
or coordinates).  `transforms.py` only drops names it has already looked
up, so the missing-name error path is never taken and the model is total. -/
def Dataset.dropVars (ds : Dataset) (ks : List String) : Dataset :=
  { ds with data_vars := ds.data_vars.filter (fun p => !(ks.contains p.1)),
            coords := ds.coords.filter (fun p => !(ks.contains p.1)) }

/-- Set (add or replace) a data variable: `dataset[k] = v`. -/
def Dataset.setVar (ds : Dataset) (k : String) (v : Variable) : Dataset :=
  { ds with data_vars := setL ds.data_vars k v }

/-- Set (add or replace) a coordinate variable. -/
def Dataset.setCoord (ds : Dataset) (k : String) (v : Variable) : Dataset :=
  { ds with coords := setL ds.coords k v }

/-! ## The transforms of `transforms.py` -/

/-- Whether an `Except` result is a success. -/
def isOkB : Except String α → Bool
  | .ok _ => true
  | .error _ => false

/-- MapDict.__call__: apply a per-dataset transform to every entry of a
keyed collection in order, collecting results under the same keys; the
first failure aborts the whole map and is re-raised as
`RuntimeError(f"{key}: {e}")`. -/
def mapDict (t : Dataset → Except String Dataset) :
    List (String × Dataset) → Except String (List (String × Dataset))
  | [] => .ok []
  | (k, d) :: rest =>
    match t d with
    | .error e => .error (k ++ ": " ++ e)
    | .ok r =>
      match mapDict t rest with
      | .error e => .error e
      | .ok rs => .ok ((k, r) :: rs)

/-- RenameDimensions.__call__.  The rename table is loaded from
`mappings/dim_names.json`, an external configuration file; it is modelled
as an injected read-only parameter `table` (dataset name to old-to-new
dimension map).  Reading a missing `name` attribute is a `KeyError`. -/
def renameDimensions (table : List (String × List (String × String)))
    (ds : Dataset) : Except String Dataset := do
  let some (.str name) := lookupL ds.attrs "name"
    | .error "KeyError: name"
  let ds := ds.squeeze false
  match lookupL table name with
  | none => .ok ds
  | some dims => do
    let ds ← ds.renameDims dims
    let ds := dims.foldl (fun d p =>
      if (lookupL d.coords p.1).isSome then d.renameVars p.1 p.2 else d) ds
    .ok { ds with attrs := setL ds.attrs "dims" (.strList ds.dimNames) }

/-- DropZeroDimensions.__call__: iterate over the coordinates of the
incoming dataset (the Python loop materialises `dataset.coords.items()`
once, before any mutation) and drop every coordinate variable whose
values are all zero.  Note the code calls `drop_vars(key)`: only the
coordinate variable itself is removed. -/
def dropZeroDimensions (ds : Dataset) : Dataset :=
  ds.coords.foldl
    (fun acc p => if p.2.data.all Val.isZero then acc.dropVars [p.1] else acc)
    ds

/-- StandardizeSignalDataset.__call__ for a given `source`.  Accessing
`dataset["error"]` before any existence check raises `KeyError` when the
variable is absent; `dataset.rename` raises when `data` is absent, and
the final `dataset[new_names["data"]]` access raises `KeyError` when no
variable carries the new name (possible when `data` was only a
dimension).  The Python code mutates the attribute dict shared between
the dataset and the renamed data variable, so both end up carrying the
updated attributes. -/
def standardizeSignalDataset (source : String) (ds : Dataset) :
    Except String Dataset := do
  let ds := ds.squeeze true
  let some (.str name) := lookupL ds.attrs "name"
    | .error "KeyError: name"
  let some errVar := ds.getVar "error"
    | .error "KeyError: error"
  let ds := if errVar.data.all Val.isZero then ds.dropVars ["error"] else ds
  let newNames :=
    if ds.containsVar "error" then
      [("data", name), ("error", name ++ "_error")]
    else
      [("data", if name = "time" then name ++ "_" else name)]
  let dataName := (lookupL newNames "data").getD ""
  let ds ← ds.rename newNames
  let attrs := setL ds.attrs "name" (.str (source ++ "/" ++ dataName))
  let ds := { ds with attrs := attrs }
  match ds.getVar dataName with
  | some v => .ok (ds.setVar dataName { v with attrs := attrs })
  | none => .error ("KeyError: " ++ dataName)

/-- Whether two datasets agree on the size of every dimension name they
share (merging datasets with conflicting sizes is a fatal xarray error). -/
def sizesAgree (a b : Dataset) : Bool :=
  a.dimsList.all (fun p =>
    b.dimsList.all (fun q => !(p.1 == q.1) || p.2 == q.2))

/-- One step of the variable union of `xr.merge`: identical variables
under the same name are compatible and kept once; differing variables
under the same name are a `MergeError`. -/
def addVar (acc : List (String × Variable)) (p : String × Variable) :
    Except String (List (String × Variable)) :=
  match lookupL acc p.1 with
  | some v => if v = p.2 then .ok acc else .error ("merge conflict: " ++ p.1)
  | none => .ok (acc ++ [p])

/-- Merge a second dataset into a first, xarray `xr.merge`-style: dimension
sizes must agree, a name may not be a data variable in one input and a
coordinate in the other, and same-named variables must be identical.
Attributes follow the default `combine_attrs="override"` (first input). -/
def mergeTwo (a b : Dataset) : Except String Dataset := do
  if !(sizesAgree a b) then
    .error "merge: conflicting dimension sizes"
  else if b.data_vars.any (fun p => (lookupL a.coords p.1).isSome)
       || b.coords.any (fun p => (lookupL a.data_vars p.1).isSome) then
    .error "merge: variable and coordinate share a name"
  else do
    let dv ← b.data_vars.foldlM addVar a.data_vars
    let co ← b.coords.foldlM addVar a.coords
    .ok { data_vars := dv, coords := co, attrs := a.attrs }

/-- The empty dataset `xr.merge` folds from. -/
def emptyDataset : Dataset := { data_vars := [], coords := [], attrs := [] }

/-- MergeDatasets.__call__: `xr.merge(dataset_dict.values())` followed by
clearing the dataset-level attributes. -/
def mergeDatasets (l : List (String × Dataset)) : Except String Dataset := do
  let ds ← l.foldlM (fun acc p => mergeTwo acc p.2) emptyDataset
  .ok { ds with attrs := [] }

/-! ## Regex machinery for TensorizeChannels

Every pattern that `transforms.py` uses (including the default
`stem + "(\d+)"`) has the shape `pre(\d+)post`, optionally anchored at
the end of the string with `$`, where `post` contains no digit.  A
pattern is therefore modelled by its literal pieces.  Because `post`
never starts with a digit, the greedy maximal-munch match of `\d+` never
needs backtracking, so maximal munch is faithful to Python `re`. -/

structure RePattern where
  pre : String
  post : String
  anchorEnd : Bool
deriving DecidableEq, Repr

/-- Strip a literal off the front of a character list. -/
def dropLit : List Char → List Char → Option (List Char)
  | [], cs => some cs
  | _ :: _, [] => none
  | l :: ls, c :: cs => if c = l then dropLit ls cs else none

/-- Split off the maximal leading run of digits. -/
def takeDigits : List Char → List Char × List Char
  | [] => ([], [])
  | c :: cs =>
    if c.isDigit then
      let r := takeDigits cs
      (c :: r.1, r.2)
    else
      ([], c :: cs)

/-- Try to match `pre(\d+)post` at the start of `cs`; on success return the
captured digit run and the remaining characters after the match. -/
def matchAt (p : RePattern) (cs : List Char) : Option (List Char × List Char) :=
  match dropLit p.pre.data cs with
  | none => none
  | some rest1 =>
    let r := takeDigits rest1
    if r.1.isEmpty then none
    else
      match dropLit p.post.data r.2 with
      | none => none
      | some rest3 =>
        if p.anchorEnd && !rest3.isEmpty then none else some (r.1, rest3)

/-- Python `re.search(pattern, s) is not None`: the pattern matches at some
position of the string. -/
def reSearch (p : RePattern) (s : String) : Bool :=
  (List.range (s.data.length + 1)).any
    (fun i => (matchAt p (s.data.drop i)).isSome)

/-- Worker for `re.split` with a single capturing group: scan left to
right; at each match emit the accumulated literal text and the captured
digits, then continue after the match.  `fuel` bounds the recursion by
the string length (each step consumes at least one character). -/
def splitGo (p : RePattern) : Nat → List Char → List Char → List String
  | 0, acc, rest => [String.mk (acc.reverse ++ rest)]
  | _ + 1, acc, [] => [String.mk acc.reverse]
  | fuel + 1, acc, c :: cs =>
    match matchAt p (c :: cs) with
    | some (digs, rest) =>
      String.mk acc.reverse :: String.mk digs :: splitGo p fuel [] rest
    | none => splitGo p fuel (c :: acc) cs

/-- Python `re.split(pattern, s)` for a pattern with one capturing group:
alternating uncaptured text and captured digit runs. -/
def reSplit (p : RePattern) (s : String) : List String :=
  splitGo p (s.data.length + 1) [] s.data

/-- Python `str.isdigit()`: non-empty and all digits. -/
def isDigitStr (s : String) : Bool :=
  !s.data.isEmpty && s.data.all Char.isDigit

/-- Python `int()` on a digit string. -/
def natOfDigits (s : String) : Nat :=
  s.data.foldl (fun acc c => acc * 10 + (c.toNat - 48)) 0

/-- One fragment of a split name: a literal string or a parsed integer. -/
inductive Frag where
  | fs : String → Frag
  | fn : Nat → Frag
deriving DecidableEq, Repr

/-- Python `<` on two fragments: numeric on two ints, lexicographic on
two strings; comparing an `int` with a `str` raises `TypeError`,
modelled as an `Except` error. -/
def Frag.ltE : Frag → Frag → Except String Bool
  | .fn a, .fn b => .ok (decide (a < b))
  | .fs a, .fs b => .ok (decide (a < b))
  | _, _ => .error "TypeError: '<' not supported between int and str"

/-- Python `<` on two fragment lists: scan for the first position where
the elements differ (Python `==` across `int`/`str` is `False`, never an
error) and compare there with the fallible element `<`; a missing prefix
is smaller. -/
def fragListLTE : List Frag → List Frag → Except String Bool
  | [], [] => .ok false
  | [], _ :: _ => .ok true
  | _ :: _, [] => .ok false
  | a :: as, b :: bs => if a = b then fragListLTE as bs else a.ltE b

/-- TensorizeChannels._parse_digits: split the name on the pattern and
cast the purely-digit parts to integers. -/
def parseDigits (p : RePattern) (s : String) : List Frag :=
  (reSplit p s).map
    (fun part => if isDigitStr part then .fn (natOfDigits part) else .fs part)

/-- Insert `a` into an already-sorted list, after every element strictly
below it — and hence also after every element with an equal key, which is
what keeps the sort stable.  A failing comparison (Python `TypeError`)
aborts the sort. -/
def insertKeyE (lt : α → α → Except String Bool) (a : α) :
    List α → Except String (List α)
  | [] => .ok [a]
  | b :: bs => do
    let c ← lt b a
    if c then
      let r ← insertKeyE lt a bs
      .ok (b :: r)
    else
      .ok (a :: b :: bs)

/-- A stable sort by a strict, possibly-failing comparison: structurally
recursive insertion sort.  Python `sorted` is also a stable comparison
sort; it propagates the `TypeError` of any comparison it performs (which
exact pairs are compared is an implementation detail of its sorting
algorithm, here insertion sort). -/
def sortStableE (lt : α → α → Except String Bool) :
    List α → Except String (List α)
  | [] => .ok []
  | a :: rest => do
    let r ← sortStableE lt rest
    insertKeyE lt a r

/-- TensorizeChannels._sort_numerically: Python `sorted` (a stable sort)
keyed on `_parse_digits`; raises `TypeError` when it compares two keys
that mix an integer and a string fragment at the first differing
position. -/
def sortNumerically (p : RePattern) (l : List String) :
    Except String (List String) :=
  sortStableE (fun a b => fragListLTE (parseDigits p a) (parseDigits p b)) l

/-- The constructor state of a TensorizeChannels instance. -/
structure TensorizeChannels where
  stem : String
  regex : RePattern
  dim_name : String
  assign_coords : Bool
deriving DecidableEq, Repr

/-- TensorizeChannels.__init__ with only `stem` given: the pattern
defaults to `stem + "(\d+)"` and the dimension name to
`stem + "_channel"`. -/
def TensorizeChannels.ofStem (stem : String) : TensorizeChannels :=
  { stem := stem,
    regex := { pre := stem, post := "", anchorEnd := false },
    dim_name := stem ++ "_channel",
    assign_coords := true }

/-- TensorizeChannels._get_group_keys: the data-variable names matching
the pattern, in numeric-aware sorted order; fails when the underlying
sort raises `TypeError` on structurally incompatible keys. -/
def getGroupKeys (t : TensorizeChannels) (ds : Dataset) :
    Except String (List String) :=
  sortNumerically t.regex
    ((ds.data_vars.map Prod.fst).filter (fun k => reSearch t.regex k))

/-- Look up each group key (`dataset[key]`). -/
def getChannels (ds : Dataset) : List String → Except String (List Variable)
  | [] => .ok []
  | k :: rest =>
    match ds.getVar k with
    | some v => (getChannels ds rest).map (fun vs => v :: vs)
    | none => .error ("KeyError: " ++ k)

/-- xr.combine_nested(channels, concat_dim=dim): stack the variables along
a brand-new leading dimension.  All inputs must share dimensions and
shape (mismatches are a fatal error).  On an empty list xarray returns an
empty `Dataset`, whose subsequent assignment under a single key raises
`TypeError` ("Cannot assign a Dataset to a single key"); the model folds
that failure into this step. -/
def combineNested (dim : String) : List Variable → Except String Variable
  | [] => .error "combine_nested: empty input"
  | c :: rest =>
    if rest.all (fun v => v.dims = c.dims && v.shape = c.shape) then
      .ok { dims := dim :: c.dims,
            shape := (c :: rest).length :: c.shape,
            data := ((c :: rest).map Variable.data).flatten,
            attrs := c.attrs }
    else
      .error "combine_nested: mismatched dimensions or shapes"

/-- TensorizeChannels.__call__: collect and order the matching variables,
stack them along the new dimension, store the result under `stem`,
optionally label the new dimension with the matched names, and drop the
original per-channel variables.  (`chunk("auto")` is a lazy-evaluation
performance hint with no effect on values, modelled as the identity.) -/
def TensorizeChannels.call (t : TensorizeChannels) (ds : Dataset) :
    Except String Dataset := do
  let keys ← getGroupKeys t ds
  let channels ← getChannels ds keys
  let stacked ← combineNested t.dim_name channels
  let ds := ds.setVar t.stem stacked
  let ds :=
    if t.assign_coords then
      ds.setCoord t.dim_name
        { dims := [t.dim_name], shape := [keys.length],
          data := keys.map Val.s, attrs := [] }
    else ds
  .ok (ds.dropVars keys)

deriving instance DecidableEq for Except

/-! ## Concrete example datasets used by witnesses and counterexamples -/

/-- A two-variable signal dataset named `sig` whose `error` values are not
all zero. -/
def dsGood : Dataset :=
  { data_vars :=
      [("data", ⟨["t"], [2], [.i 1, .i 2], []⟩),
       ("error", ⟨["t"], [2], [.i 3, .i 4], []⟩)],
    coords := [], attrs := [("name", .str "sig")] }

/-- A signal dataset with a `data` variable but no `error` variable. -/
def dsNoError : Dataset :=
  { data_vars := [("data", ⟨["t"], [2], [.i 1, .i 2], []⟩)],
    coords := [], attrs := [("name", .str "sig2")] }

/-- A two-entry collection whose datasets always pass
DropZeroDimensions. -/
def collC8 : List (String × Dataset) :=
  [("a", { data_vars := [("v", ⟨["x"], [2], [.i 1, .i 2], []⟩)],
           coords := [("x", ⟨["x"], [2], [.i 0, .i 0], []⟩)],
           attrs := [] }),
   ("b", { data_vars := [("w", ⟨["y"], [1], [.i 3], []⟩)],
           coords := [], attrs := [] })]

/-! ## Helper lemmas about the association-list primitives -/

theorem lookupL_map_value (f : α → β) (l : List (String × α)) (k : String) :
    lookupL (l.map (fun p => (p.1, f p.2))) k = (lookupL l k).map f := by
  induction l with
  | nil => rfl
  | cons p rest ih =>
    by_cases h : p.1 = k <;> simp [lookupL, h, ih]

theorem lookupL_isSome_iff (l : List (String × α)) (k : String) :
    (lookupL l k).isSome = true ↔ k ∈ l.map Prod.fst := by
  induction l with
  | nil => simp [lookupL]
  | cons p rest ih =>
    by_cases h : p.1 = k
    · subst h; simp [lookupL]
    · have h' : ¬k = p.1 := fun hh => h hh.symm
      simp [lookupL, h, h', ih]

theorem lookupL_eq_none_iff (l : List (String × α)) (k : String) :
    lookupL l k = none ↔ k ∉ l.map Prod.fst := by
  rw [← lookupL_isSome_iff]
  cases lookupL l k <;> simp

theorem lookupL_append (a b : List (String × α)) (k : String) :
    lookupL (a ++ b) k =
      match lookupL a k with
      | some v => some v
      | none => lookupL b k := by
  induction a with
  | nil => simp [lookupL]
  | cons p rest ih =>
    by_cases h : p.1 = k <;> simp [lookupL, h, ih]

theorem lookupL_filter (l : List (String × α)) (ks : List String) (k : String) :
    lookupL (l.filter (fun p => !(ks.contains p.1))) k =
      if ks.contains k then none else lookupL l k := by
  by_cases hk : ks.contains k = true
  · rw [if_pos hk, lookupL_eq_none_iff]
    intro hmem
    obtain ⟨p, hp, hpk⟩ := List.mem_map.mp hmem
    have hf := List.of_mem_filter hp
    rw [hpk] at hf
    simp at hf hk
    exact hf hk
  · rw [if_neg hk]
    induction l with
    | nil => rfl
    | cons p rest ih =>
      rw [List.filter_cons]
      by_cases h : p.1 = k
      · subst h
        rw [if_pos (by simpa using hk)]
        simp [lookupL]
      · by_cases hm : (!(ks.contains p.1)) = true
        · rw [if_pos hm]
          simp only [lookupL]
          rw [if_neg h, if_neg h]
          exact ih
        · rw [if_neg hm]
          rw [ih]
          simp only [lookupL]
          rw [if_neg h]

theorem lookupL_setL_self (l : List (String × α)) (k : String) (v : α) :
    lookupL (setL l k v) k = some v := by
  unfold setL
  by_cases hs : (lookupL l k).isSome = true
  · rw [if_pos hs]
    induction l with
    | nil => simp [lookupL] at hs
    | cons p rest ih =>
      by_cases h : p.1 = k
      · simp [lookupL, h]
      · simp only [lookupL, h, if_false] at hs
        simp [lookupL, h, ih hs]
  · rw [if_neg hs]
    rw [lookupL_append]
    rw [Option.not_isSome_iff_eq_none] at hs
    simp [hs, lookupL]

theorem setL_map_fst_of_isSome (l : List (String × α)) (k : String) (v : α)
    (h : (lookupL l k).isSome) :
    (setL l k v).map Prod.fst = l.map Prod.fst := by
  unfold setL
  simp only [h, if_true, List.map_map]
  apply List.map_congr_left
  intro p _
  by_cases hp : p.1 = k <;> simp [hp]

/-! ## C1: numeric-aware ordering of channel names -/

/-- C1.  TensorizeChannels orders the variable names matching its pattern
by the numeric-aware comparison implemented by `_parse_digits` and
Python's stable `sorted`: for any arrangement of the data variables
`x2`, `x10`, `x1` and the default pattern of stem `x` (`x(\d+)`), the
fused axis order computed by `_get_group_keys` is `[x1, x2, x10]` — the
numeric order, not the lexical order — and it is the same for every
iteration order of the input name set, i.e. deterministic for a fixed
input set. -/
theorem claim_C1 (l : List String) (h : l.Perm ["x2", "x10", "x1"]) :
    getGroupKeys (TensorizeChannels.ofStem "x")
      { data_vars := l.map (fun k => (k, Variable.mk ["t"] [2] [.i 0, .i 0] [])),
        coords := [], attrs := [] } = .ok ["x1", "x2", "x10"] := by
  have hm : l ∈ (["x2", "x10", "x1"] : List String).permutations' :=
    List.mem_permutations'.mpr h
  have he : (["x2", "x10", "x1"] : List String).permutations' =
      [["x2", "x10", "x1"], ["x10", "x2", "x1"], ["x10", "x1", "x2"],
       ["x2", "x1", "x10"], ["x1", "x2", "x10"], ["x1", "x10", "x2"]] := by
    decide
  rw [he] at hm
  simp only [List.mem_cons, List.not_mem_nil, or_false] at hm
  rcases hm with rfl | rfl | rfl | rfl | rfl | rfl <;> decide

/-- Witness for C1 at the claim's own input order `["x2", "x10", "x1"]`. -/
theorem claim_C1_witness :
    getGroupKeys (TensorizeChannels.ofStem "x")
      { data_vars := ["x2", "x10", "x1"].map
          (fun k => (k, Variable.mk ["t"] [2] [.i 0, .i 0] [])),
        coords := [], attrs := [] } = .ok ["x1", "x2", "x10"] :=
  claim_C1 ["x2", "x10", "x1"] (List.Perm.refl _)

/-! ## C7: MapDict is fail-fast with attributable errors -/

/-- C7.  If the transform succeeds on every entry before key `k` and
raises message `m` on `k`, then MapDict fails with exactly the message
`k ++ ": " ++ m` — which contains the offending key and wraps the
underlying cause — no collection is returned, and the result does not
depend on the entries after `k` (the arbitrary suffix `post` does not
occur in the conclusion). -/
theorem claim_C7 (t : Dataset → Except String Dataset)
    (pre : List (String × Dataset)) (k : String) (d : Dataset)
    (post : List (String × Dataset)) (m : String)
    (hpre : ∀ p ∈ pre, isOkB (t p.2) = true)
    (hfail : t d = .error m) :
    mapDict t (pre ++ (k, d) :: post) = .error (k ++ ": " ++ m) := by
  induction pre with
  | nil => simp [mapDict, hfail]
  | cons p rest ih =>
    have hp : isOkB (t p.2) = true := hpre p (List.mem_cons_self p rest)
    obtain ⟨r, hr⟩ : ∃ r, t p.2 = .ok r := by
      cases hv : t p.2 with
      | ok r => exact ⟨r, rfl⟩
      | error e => rw [hv] at hp; simp [isOkB] at hp
    have ih' := ih (fun q hq => hpre q (List.mem_cons_of_mem p hq))
    simp [mapDict, hr, ih']

/-- Witness for C7: StandardizeSignalDataset succeeds on key `good` and
raises on key `bad` (whose dataset lacks the `error` variable), so the
map fails with a message naming `bad`. -/
theorem claim_C7_witness :
    mapDict (standardizeSignalDataset "src")
      [("good", dsGood), ("bad", dsNoError)] =
      .error ("bad" ++ ": " ++ "KeyError: error") :=
  claim_C7 (standardizeSignalDataset "src")
    [("good", dsGood)] "bad" dsNoError [] "KeyError: error"
    (by decide) (by decide)

/-! ## C8: MapDict preserves the key set on success -/

/-- C8.  When the transform succeeds on every entry, MapDict returns a
collection with exactly the input's keys in the input's order (none
added, none dropped), and the value under each position is the
transform of the input dataset at that position. -/
theorem claim_C8 (t : Dataset → Except String Dataset)
    (l : List (String × Dataset))
    (h : ∀ p ∈ l, isOkB (t p.2) = true) :
    ∃ l', mapDict t l = .ok l' ∧
      l'.map Prod.fst = l.map Prod.fst ∧
      List.Forall₂ (fun p q => t p.2 = Except.ok q.2) l l' := by
  induction l with
  | nil => exact ⟨[], rfl, rfl, List.Forall₂.nil⟩
  | cons p rest ih =>
    have hp : isOkB (t p.2) = true := h p (List.mem_cons_self p rest)
    obtain ⟨r, hr⟩ : ∃ r, t p.2 = .ok r := by
      cases hv : t p.2 with
      | ok r => exact ⟨r, rfl⟩
      | error e => rw [hv] at hp; simp [isOkB] at hp
    obtain ⟨rs, hrs, hkeys, hfa⟩ := ih (fun q hq => h q (List.mem_cons_of_mem p hq))
    refine ⟨(p.1, r) :: rs, ?_, ?_, ?_⟩
    · simp [mapDict, hr, hrs]
    · simp [hkeys]
    · exact List.Forall₂.cons hr hfa

/-- Witness for C8: MapDict(DropZeroDimensions) over a two-entry
collection succeeds everywhere and keeps both keys. -/
theorem claim_C8_witness :
    ∃ l', mapDict (fun ds => (Except.ok (dropZeroDimensions ds) : Except String Dataset))
        collC8 = .ok l' ∧
      l'.map Prod.fst = collC8.map Prod.fst ∧
      List.Forall₂
        (fun p q =>
          (fun ds => (Except.ok (dropZeroDimensions ds) : Except String Dataset)) p.2 =
            Except.ok q.2)
        collC8 l' :=
  claim_C8 (fun ds => (Except.ok (dropZeroDimensions ds) : Except String Dataset))
    collC8 (by intro p _; rfl)

/-! ## C10: zero pattern matches make TensorizeChannels fail -/

/-- C10.  When no data-variable name matches the pattern, the group-key
list is empty and `xr.combine_nested` of the empty channel list does not
produce a usable stacked variable (xarray returns an empty `Dataset`,
whose assignment under the stem key raises `TypeError`), so
TensorizeChannels fails rather than succeeding with the dataset
unchanged or with an absent stem variable. -/
theorem claim_C10 (t : TensorizeChannels) (ds : Dataset)
    (h : ∀ p ∈ ds.data_vars, reSearch t.regex p.1 = false) :
    isOkB (t.call ds) = false := by
  have hkeys : getGroupKeys t ds = .ok [] := by
    unfold getGroupKeys
    have : (ds.data_vars.map Prod.fst).filter (fun k => reSearch t.regex k) = [] := by
      rw [List.filter_eq_nil_iff]
      intro a ha
      obtain ⟨p, hp, rfl⟩ := List.mem_map.mp ha
      simp [h p hp]
    rw [this]
    rfl
  unfold TensorizeChannels.call
  rw [hkeys]
  rfl

/-- Witness for C10: tensorizing stem `x` on a dataset whose only data
variable is `y` fails. -/
theorem claim_C10_witness :
    isOkB ((TensorizeChannels.ofStem "x").call
      { data_vars := [("y", ⟨["t"], [2], [.i 1, .i 2], []⟩)],
        coords := [], attrs := [] }) = false :=
  claim_C10 (TensorizeChannels.ofStem "x")
    { data_vars := [("y", ⟨["t"], [2], [.i 1, .i 2], []⟩)],
      coords := [], attrs := [] }
    (by decide)

/-! ## C3: DropZeroDimensions drops only the coordinate variable -/

/-- Dropping one variable and then a list of variables is dropping them
all at once. -/
theorem dropVars_dropVars (ds : Dataset) (k : String) (ks : List String) :
    (ds.dropVars [k]).dropVars ks = ds.dropVars (k :: ks) := by
  unfold Dataset.dropVars
  simp only [List.filter_filter]
  have harg : ∀ (l : List (String × Variable)),
      (l.filter (fun a => !(ks.contains a.1) && !([k].contains a.1))) =
        (l.filter (fun p => !((k :: ks).contains p.1))) := by
    intro l
    apply List.filter_congr
    intro p _
    cases h1 : ([k].contains p.1) <;> cases h2 : (ks.contains p.1) <;>
      simp_all [List.contains_cons]
  rw [harg, harg]

/-- The DropZeroDimensions fold over a coordinate list equals a single
`drop_vars` of all the all-zero coordinate keys. -/
theorem dropZero_fold (cs : List (String × Variable)) (acc : Dataset) :
    cs.foldl
      (fun a p => if p.2.data.all Val.isZero then a.dropVars [p.1] else a)
      acc =
    acc.dropVars ((cs.filter (fun p => p.2.data.all Val.isZero)).map Prod.fst) := by
  induction cs generalizing acc with
  | nil =>
    unfold Dataset.dropVars
    simp
  | cons c rest ih =>
    rw [List.foldl_cons, List.filter_cons]
    by_cases hz : c.2.data.all Val.isZero = true
    · rw [if_pos hz, if_pos hz, ih, List.map_cons, dropVars_dropVars]
    · rw [if_neg hz, if_neg hz, ih]

/-- A dataset on which the claim C3 fails: the coordinate `x` is all
zero, and the data variable `v` lives purely on the axis `x`. -/
def dsZeroCoord : Dataset :=
  { data_vars := [("v", ⟨["x"], [2], [.i 5, .i 6], []⟩)],
    coords := [("x", ⟨["x"], [2], [.i 0, .i 0], []⟩)],
    attrs := [] }

/-- Counterexample to C3.  After DropZeroDimensions on `dsZeroCoord`,
the variable `v` — defined purely on the all-zero axis `x` — is still
present, and the axis `x` itself (size 2) still exists; the claim
asserts the result contains neither. -/
theorem claim_C3_counterexample :
    (lookupL (dropZeroDimensions dsZeroCoord).data_vars "v").isSome = true ∧
    (dropZeroDimensions dsZeroCoord).hasDim "x" = true := by
  decide

/-- C3 as amended.  `DropZeroDimensions.__call__` calls
`dataset.drop_vars(key)` for each all-zero coordinate, which removes only
the coordinate variable itself: for a dataset whose coordinate names are
distinct and disjoint from its data-variable names, the result keeps
every data variable (even those defined purely on an all-zero axis),
removes exactly the all-zero coordinates, preserves every coordinate
with a non-zero value unchanged, and leaves the attributes intact. -/
theorem claim_C3_amended (ds : Dataset)
    (hnd : (ds.coords.map Prod.fst).Nodup)
    (hdisj : ∀ k ∈ ds.coords.map Prod.fst, lookupL ds.data_vars k = none) :
    (dropZeroDimensions ds).data_vars = ds.data_vars ∧
    (dropZeroDimensions ds).coords =
      ds.coords.filter (fun p => !(p.2.data.all Val.isZero)) ∧
    (dropZeroDimensions ds).attrs = ds.attrs := by
  unfold dropZeroDimensions
  rw [dropZero_fold]
  unfold Dataset.dropVars
  refine ⟨?_, ?_, rfl⟩
  · rw [List.filter_eq_self]
    intro p hp
    rw [Bool.not_eq_true', Bool.eq_false_iff]
    intro hcc
    have hmem : p.1 ∈ (ds.coords.filter
        (fun q => q.2.data.all Val.isZero)).map Prod.fst :=
      List.elem_iff.mp hcc
    obtain ⟨q, hq, hqk⟩ := List.mem_map.mp hmem
    have hq' : q ∈ ds.coords := List.mem_of_mem_filter hq
    have hnone : lookupL ds.data_vars q.1 = none :=
      hdisj q.1 (List.mem_map.mpr ⟨q, hq', rfl⟩)
    rw [lookupL_eq_none_iff, hqk] at hnone
    exact hnone (List.mem_map.mpr ⟨p, hp, rfl⟩)
  · apply List.filter_congr
    intro p hp
    by_cases hz : p.2.data.all Val.isZero = true
    · have hmem : p.1 ∈ (ds.coords.filter
          (fun q => q.2.data.all Val.isZero)).map Prod.fst :=
        List.mem_map.mpr ⟨p, List.mem_filter.mpr ⟨hp, hz⟩, rfl⟩
      have hcon : ((ds.coords.filter
          (fun q => q.2.data.all Val.isZero)).map Prod.fst).contains p.1 = true :=
        List.elem_iff.mpr hmem
      rw [hcon, hz]
    · have hcon : ((ds.coords.filter
          (fun q => q.2.data.all Val.isZero)).map Prod.fst).contains p.1 = false := by
        cases hcc : ((ds.coords.filter
            (fun q => q.2.data.all Val.isZero)).map Prod.fst).contains p.1 with
        | false => rfl
        | true =>
          obtain ⟨q, hq, hqk⟩ := List.mem_map.mp (List.elem_iff.mp hcc)
          have hq' : q ∈ ds.coords := List.mem_of_mem_filter hq
          have hqz := List.of_mem_filter hq
          have : q = p := List.inj_on_of_nodup_map hnd hq' hp hqk
          rw [this] at hqz
          exact absurd hqz hz
      rw [hcon, Bool.eq_false_iff.mpr hz]

/-- Witness for C3 as amended: one all-zero coordinate is removed, a
non-zero coordinate and the data variable survive untouched. -/
theorem claim_C3_amended_witness :
    (dropZeroDimensions
      { data_vars := [("v", ⟨["x"], [2], [.i 5, .i 6], []⟩)],
        coords := [("x", ⟨["x"], [2], [.i 0, .i 0], []⟩),
                   ("y", ⟨["y"], [2], [.i 0, .i 7], []⟩)],
        attrs := [("name", .str "d")] }).data_vars =
      [("v", ⟨["x"], [2], [.i 5, .i 6], []⟩)] ∧
    (dropZeroDimensions
      { data_vars := [("v", ⟨["x"], [2], [.i 5, .i 6], []⟩)],
        coords := [("x", ⟨["x"], [2], [.i 0, .i 0], []⟩),
                   ("y", ⟨["y"], [2], [.i 0, .i 7], []⟩)],
        attrs := [("name", .str "d")] }).coords =
      ([("x", ⟨["x"], [2], [.i 0, .i 0], []⟩),
        ("y", ⟨["y"], [2], [.i 0, .i 7], []⟩)] :
          List (String × Variable)).filter
        (fun p => !(p.2.data.all Val.isZero)) ∧
    (dropZeroDimensions
      { data_vars := [("v", ⟨["x"], [2], [.i 5, .i 6], []⟩)],
        coords := [("x", ⟨["x"], [2], [.i 0, .i 0], []⟩),
                   ("y", ⟨["y"], [2], [.i 0, .i 7], []⟩)],
        attrs := [("name", .str "d")] }).attrs =
      [("name", .str "d")] :=
  claim_C3_amended
    { data_vars := [("v", ⟨["x"], [2], [.i 5, .i 6], []⟩)],
      coords := [("x", ⟨["x"], [2], [.i 0, .i 0], []⟩),
                 ("y", ⟨["y"], [2], [.i 0, .i 7], []⟩)],
      attrs := [("name", .str "d")] }
    (by decide) (by decide)

/-! ## C5 and C6: StandardizeSignalDataset -/

/-- Squeezing never changes the dataset attributes. -/
theorem squeeze_attrs (ds : Dataset) (b : Bool) : (ds.squeeze b).attrs = ds.attrs := rfl

/-- Appending a non-empty string yields a different string. -/
theorem append_ne_left (s t : String) (h : t.length ≠ 0) : s ++ t ≠ s := by
  intro he
  have hl := congrArg String.length he
  rw [String.length_append] at hl
  omega

/-- `Dataset.rename` succeeds, with the variables renamed pointwise, when
every key to rename is present and the renamed name map is free of
collisions. -/
theorem rename_eq_of_nodup (ds : Dataset) (m : List (String × String))
    (hall : (m.all (fun p => (ds.getVar p.1).isSome || ds.hasDim p.1)) = true)
    (hnd : (ds.allVars.map (fun p => renameWith m p.1)).Nodup) :
    ds.rename m = .ok
      { data_vars := ds.data_vars.map (fun p => (renameWith m p.1, p.2.renameDims m)),
        coords := ds.coords.map (fun p => (renameWith m p.1, p.2.renameDims m)),
        attrs := ds.attrs } := by
  unfold Dataset.rename
  rw [if_pos hall, if_pos hnd]

/-- Splitting a failed dataset item lookup into its two component
lookups. -/
theorem getVar_none_split (ds : Dataset) (k : String)
    (h : ds.getVar k = none) :
    lookupL ds.data_vars k = none ∧ lookupL ds.coords k = none := by
  unfold Dataset.getVar at h
  cases hv : lookupL ds.data_vars k with
  | none =>
    rw [hv] at h
    exact ⟨rfl, h⟩
  | some v =>
    rw [hv] at h
    simp at h

/-- Dropping variables whose names differ from `k` does not change the
item lookup at `k`. -/
theorem getVar_dropVars_of_not_contains (ds : Dataset) (ks : List String)
    (k : String) (hc : ks.contains k = false) :
    (ds.dropVars ks).getVar k = ds.getVar k := by
  unfold Dataset.getVar Dataset.dropVars
  simp only []
  rw [lookupL_filter, lookupL_filter, hc]
  simp

/-- Dropping variables cannot introduce a dimension. -/
theorem hasDim_dropVars_false (ds : Dataset) (ks : List String) (n : String)
    (h : ds.hasDim n = false) : (ds.dropVars ks).hasDim n = false := by
  unfold Dataset.hasDim Dataset.dimLookup at h ⊢
  rw [Bool.eq_false_iff] at h ⊢
  intro hsome
  apply h
  rw [lookupL_isSome_iff] at hsome ⊢
  obtain ⟨q, hq, rfl⟩ := List.mem_map.mp hsome
  apply List.mem_map.mpr
  refine ⟨q, ?_, rfl⟩
  unfold Dataset.dimsList Dataset.allVars at hq ⊢
  unfold Dataset.dropVars at hq
  simp only [List.mem_flatMap, List.mem_append] at hq ⊢
  obtain ⟨w, hw, hqw⟩ := hq
  rcases hw with hw | hw
  · exact ⟨w, Or.inl (List.mem_of_mem_filter hw), hqw⟩
  · exact ⟨w, Or.inr (List.mem_of_mem_filter hw), hqw⟩

/-- Full behaviour of StandardizeSignalDataset on a standard signal
dataset: after the squeeze the data variables are exactly `data` and
`error`, and the coordinate names are distinct and avoid the names the
transform reads or creates (so xarray's rename-conflict `ValueError`
cannot fire).  The transform then succeeds and the resulting variable
names are fully determined by the two branches of the code. -/
theorem standardize_shape_spec (source : String) (ds : Dataset) (name : String)
    (dv ev : Variable)
    (hname : lookupL ds.attrs "name" = some (.str name))
    (hkeys : (ds.squeeze true).data_vars = [("data", dv), ("error", ev)])
    (hcu : ((ds.squeeze true).coords.map Prod.fst).Nodup)
    (hcn : ∀ p ∈ (ds.squeeze true).coords,
      p.1 ≠ "data" ∧ p.1 ≠ "error" ∧ p.1 ≠ name ∧
      p.1 ≠ name ++ "_" ∧ p.1 ≠ name ++ "_error") :
    ∃ ds', standardizeSignalDataset source ds = .ok ds' ∧
      ds'.data_vars.map Prod.fst =
        (if ev.data.all Val.isZero then
          [if name = "time" then name ++ "_" else name]
         else [name, name ++ "_error"]) := by
  have herr : (ds.squeeze true).getVar "error" = some ev := by
    unfold Dataset.getVar
    rw [hkeys]
    simp [lookupL]
  unfold standardizeSignalDataset
  simp only []
  rw [squeeze_attrs, hname, herr]
  simp only []
  by_cases hz : ev.data.all Val.isZero = true
  · have h2 : ((ds.squeeze true).dropVars ["error"]).data_vars = [("data", dv)] := by
      unfold Dataset.dropVars
      rw [hkeys]
      simp
    have h2c : ((ds.squeeze true).dropVars ["error"]).coords = (ds.squeeze true).coords := by
      unfold Dataset.dropVars
      simp only []
      rw [List.filter_eq_self]
      intro p hp
      have hne := (hcn p hp).2.1
      simp [hne]
    have hcv : ((ds.squeeze true).dropVars ["error"]).containsVar "error" = false := by
      unfold Dataset.containsVar
      rw [h2]
      simp [lookupL]
    have hgd : ((ds.squeeze true).dropVars ["error"]).getVar "data" = some dv := by
      unfold Dataset.getVar
      rw [h2]
      simp [lookupL]
    have hall : (([("data", if name = "time" then name ++ "_" else name)]).all
        (fun p => (((ds.squeeze true).dropVars ["error"]).getVar p.1).isSome
          || ((ds.squeeze true).dropVars ["error"]).hasDim p.1)) = true := by
      simp [hgd]
    have hmapc : (ds.squeeze true).coords.map
        (fun p => renameWith
          [("data", if name = "time" then name ++ "_" else name)] p.1) =
        (ds.squeeze true).coords.map Prod.fst := by
      apply List.map_congr_left
      intro p hp
      have hne : ¬("data" = p.1) := fun he => (hcn p hp).1 he.symm
      unfold renameWith
      simp [lookupL, hne]
    have hnd : (((ds.squeeze true).dropVars ["error"]).allVars.map
        (fun p => renameWith
          [("data", if name = "time" then name ++ "_" else name)] p.1)).Nodup := by
      unfold Dataset.allVars
      rw [h2, h2c, List.map_append, hmapc]
      have hw : (([("data", dv)] : List (String × Variable)).map
          (fun p => renameWith
            [("data", if name = "time" then name ++ "_" else name)] p.1)) =
          [if name = "time" then name ++ "_" else name] := by
        simp [renameWith, lookupL]
      rw [hw, List.nodup_append]
      refine ⟨List.nodup_singleton _, hcu, ?_⟩
      intro a ha hb
      rw [List.mem_singleton] at ha
      obtain ⟨p, hp, hpk⟩ := List.mem_map.mp hb
      subst ha
      by_cases ht : name = "time"
      · rw [if_pos ht] at hpk
        exact (hcn p hp).2.2.2.1 hpk
      · rw [if_neg ht] at hpk
        exact (hcn p hp).2.2.1 hpk
    have hdvmap : (([("data", dv)] : List (String × Variable)).map
        (fun p => (renameWith
          [("data", if name = "time" then name ++ "_" else name)] p.1,
          p.2.renameDims
            [("data", if name = "time" then name ++ "_" else name)]))) =
        [((if name = "time" then name ++ "_" else name),
          dv.renameDims [("data", if name = "time" then name ++ "_" else name)])] := by
      simp [renameWith, lookupL]
    have hren := rename_eq_of_nodup ((ds.squeeze true).dropVars ["error"])
      [("data", if name = "time" then name ++ "_" else name)] hall hnd
    rw [h2, hdvmap] at hren
    simp only [hz, if_true, hcv, Bool.false_eq_true, if_false]
    rw [hren]
    simp only [Except.bind, bind]
    simp [Dataset.getVar, Dataset.setVar, setL, lookupL, hz]
  · have hcvT : (ds.squeeze true).containsVar "error" = true := by
      unfold Dataset.containsVar
      rw [hkeys]
      simp [lookupL]
    have hgdT : (ds.squeeze true).getVar "data" = some dv := by
      unfold Dataset.getVar
      rw [hkeys]
      simp [lookupL]
    have hneq : ¬(name = name ++ "_error") :=
      fun he => append_ne_left name "_error" (by decide) he.symm
    have hneq2 : ¬(name ++ "_error" = name) := append_ne_left name "_error" (by decide)
    have hallT : (([("data", name), ("error", name ++ "_error")]).all
        (fun p => ((ds.squeeze true).getVar p.1).isSome
          || (ds.squeeze true).hasDim p.1)) = true := by
      simp [hgdT, herr]
    have hmapcT : (ds.squeeze true).coords.map
        (fun p => renameWith [("data", name), ("error", name ++ "_error")] p.1) =
        (ds.squeeze true).coords.map Prod.fst := by
      apply List.map_congr_left
      intro p hp
      have hne1 : ¬("data" = p.1) := fun he => (hcn p hp).1 he.symm
      have hne2 : ¬("error" = p.1) := fun he => (hcn p hp).2.1 he.symm
      unfold renameWith
      simp [lookupL, hne1, hne2]
    have hndT : ((ds.squeeze true).allVars.map
        (fun p => renameWith [("data", name), ("error", name ++ "_error")] p.1)).Nodup := by
      unfold Dataset.allVars
      rw [hkeys, List.map_append, hmapcT]
      have hw : (([("data", dv), ("error", ev)] : List (String × Variable)).map
          (fun p => renameWith [("data", name), ("error", name ++ "_error")] p.1)) =
          [name, name ++ "_error"] := by
        simp [renameWith, lookupL]
      rw [hw, List.nodup_append]
      refine ⟨by simp [hneq], hcu, ?_⟩
      intro a ha hb
      obtain ⟨p, hp, hpk⟩ := List.mem_map.mp hb
      rw [List.mem_cons, List.mem_singleton] at ha
      rcases ha with rfl | rfl
      · exact (hcn p hp).2.2.1 hpk
      · exact (hcn p hp).2.2.2.2 hpk
    have hdvmapT : (([("data", dv), ("error", ev)] : List (String × Variable)).map
        (fun p => (renameWith [("data", name), ("error", name ++ "_error")] p.1,
          p.2.renameDims [("data", name), ("error", name ++ "_error")]))) =
        [(name, dv.renameDims [("data", name), ("error", name ++ "_error")]),
         (name ++ "_error", ev.renameDims [("data", name), ("error", name ++ "_error")])] := by
      simp [renameWith, lookupL]
    have hren := rename_eq_of_nodup (ds.squeeze true)
      [("data", name), ("error", name ++ "_error")] hallT hndT
    rw [hkeys, hdvmapT] at hren
    simp only [hz, Bool.false_eq_true, if_false, hcvT, if_true]
    rw [hren]
    simp only [Except.bind, bind]
    simp [Dataset.getVar, Dataset.setVar, setL, lookupL, hz, hneq, hneq2]

/-- A dataset named `time` holding a `data` variable and a surviving
(non-zero) `error` variable. -/
def dsTimeBoth : Dataset :=
  { data_vars := [("data", ⟨["t"], [2], [.i 1, .i 2], []⟩),
                  ("error", ⟨["t"], [2], [.i 3, .i 4], []⟩)],
    coords := [], attrs := [("name", .str "time")] }

/-- Counterexample to C5.  On a dataset named `time` whose `error`
survives the all-zero drop, the transform succeeds but names the data
variable `time`, not `time_`: the `time → time_` rewrite lives only in
the no-error branch of the code, so it does not apply "regardless of
whether `error` survives" as the claim asserts. -/
theorem claim_C5_counterexample :
    (standardizeSignalDataset "src" dsTimeBoth).toOption.map
      (fun d => ((lookupL d.data_vars "time").isSome,
                 (lookupL d.data_vars "time_").isSome)) = some (true, false) := by
  decide

/-- C5 as amended.  For a standard signal dataset (variables exactly
`data` and `error` after the squeeze, in that order, and coordinate
names distinct and clear of the canonical names, so that xarray's
rename-conflict `ValueError` cannot fire) with name attribute `name`:
when `error` is all zero it is dropped and `data` is renamed to `name`
with the underscore rewrite applied if `name` is literally `time`; when
`error` survives, `data` is renamed to plain `name` — even when
`name = "time"` — and `error` to `name ++ "_error"`.  The underscore
rewrite therefore applies only when `error` does not survive. -/
theorem claim_C5_amended (source : String) (ds : Dataset) (name : String)
    (dv ev : Variable)
    (hname : lookupL ds.attrs "name" = some (.str name))
    (hkeys : (ds.squeeze true).data_vars = [("data", dv), ("error", ev)])
    (hcu : ((ds.squeeze true).coords.map Prod.fst).Nodup)
    (hcn : ∀ p ∈ (ds.squeeze true).coords,
      p.1 ≠ "data" ∧ p.1 ≠ "error" ∧ p.1 ≠ name ∧
      p.1 ≠ name ++ "_" ∧ p.1 ≠ name ++ "_error") :
    ∃ ds', standardizeSignalDataset source ds = .ok ds' ∧
      ds'.data_vars.map Prod.fst =
        (if ev.data.all Val.isZero then
          [if name = "time" then name ++ "_" else name]
         else [name, name ++ "_error"]) :=
  standardize_shape_spec source ds name dv ev hname hkeys hcu hcn

/-- Witness for C5 as amended, at `dsTimeBoth`: the surviving-error
branch produces variables named `time` and `time_error`. -/
theorem claim_C5_amended_witness :
    ∃ ds', standardizeSignalDataset "src" dsTimeBoth = .ok ds' ∧
      ds'.data_vars.map Prod.fst =
        (if (Variable.mk ["t"] [2] [.i 3, .i 4] []).data.all Val.isZero then
          [if "time" = "time" then "time" ++ "_" else "time"]
         else ["time", "time" ++ "_error"]) :=
  claim_C5_amended "src" dsTimeBoth "time"
    ⟨["t"], [2], [.i 1, .i 2], []⟩ ⟨["t"], [2], [.i 3, .i 4], []⟩
    (by decide) (by decide) (by decide) (by decide)

/-- A minimal dataset with a `data` variable, a `name` attribute and no
`error` variable. -/
def dsOnlyData : Dataset :=
  { data_vars := [("data", ⟨[], [], [.i 9], []⟩)],
    coords := [], attrs := [("name", .str "q")] }

/-- A dataset with an `error` variable but no `data` variable (and no
dimension named `data`). -/
def dsNoData : Dataset :=
  { data_vars := [("error", ⟨["t"], [2], [.i 1, .i 0], []⟩)],
    coords := [], attrs := [("name", .str "nod")] }

/-- Counterexample to C6.  `dsNoError` has a `data` variable and no
`error` variable, yet StandardizeSignalDataset fails on it: the code
evaluates `dataset["error"].values` before any existence check, so a
missing `error` raises `KeyError` — the transform does not fail **only**
when `data` is absent. -/
theorem claim_C6_counterexample :
    isOkB (standardizeSignalDataset "src" dsNoError) = false := by
  decide

/-- C6 as amended.  StandardizeSignalDataset fails when the `error`
variable is absent (the unconditional `dataset["error"]` access raises
`KeyError`), and it does fail when `data` is absent (neither a variable
nor a dimension: the rename of `data` raises); it succeeds on standard
signal datasets — a `name` attribute, variables exactly `data` and
`error`, and coordinate names clear of the canonical names so xarray's
rename-conflict `ValueError` cannot fire.  The `error` variable is
mandatory, not optional. -/
theorem claim_C6_amended (source : String) (ds : Dataset) :
    ((ds.squeeze true).getVar "error" = none →
      isOkB (standardizeSignalDataset source ds) = false) ∧
    ((ds.squeeze true).getVar "data" = none →
      (ds.squeeze true).hasDim "data" = false →
      isOkB (standardizeSignalDataset source ds) = false) ∧
    (∀ name dv ev,
      lookupL ds.attrs "name" = some (.str name) →
      (ds.squeeze true).data_vars = [("data", dv), ("error", ev)] →
      ((ds.squeeze true).coords.map Prod.fst).Nodup →
      (∀ p ∈ (ds.squeeze true).coords,
        p.1 ≠ "data" ∧ p.1 ≠ "error" ∧ p.1 ≠ name ∧
        p.1 ≠ name ++ "_" ∧ p.1 ≠ name ++ "_error") →
      isOkB (standardizeSignalDataset source ds) = true) := by
  refine ⟨?_, ?_, ?_⟩
  · intro herr
    unfold standardizeSignalDataset
    simp only []
    rw [squeeze_attrs]
    cases hn : lookupL ds.attrs "name" with
    | none => simp [isOkB]
    | some a =>
      cases a with
      | strList m => simp [isOkB]
      | str n =>
        rw [herr]
        simp [isOkB]
  · intro hdata hdim
    unfold standardizeSignalDataset
    simp only []
    rw [squeeze_attrs]
    cases hn : lookupL ds.attrs "name" with
    | none => simp [isOkB]
    | some a =>
      cases a with
      | strList m => simp [isOkB]
      | str n =>
        cases hev : (ds.squeeze true).getVar "error" with
        | none => simp [isOkB]
        | some ev =>
          simp only []
          by_cases hz : ev.data.all Val.isZero = true
          · simp only [hz, if_true]
            have hcv : ((ds.squeeze true).dropVars ["error"]).containsVar "error" = false := by
              unfold Dataset.containsVar Dataset.dropVars
              simp only []
              rw [lookupL_filter]
              simp
            simp only [hcv, Bool.false_eq_true, if_false]
            have hgv : ((ds.squeeze true).dropVars ["error"]).getVar "data" = none := by
              rw [getVar_dropVars_of_not_contains _ _ _ (by decide)]
              exact hdata
            have hdim2 := hasDim_dropVars_false (ds.squeeze true) ["error"] "data" hdim
            have hcond : (([("data", if n = "time" then n ++ "_" else n)]).all
                (fun p => (((ds.squeeze true).dropVars ["error"]).getVar p.1).isSome
                  || ((ds.squeeze true).dropVars ["error"]).hasDim p.1)) = false := by
              simp [hgv, hdim2]
            unfold Dataset.rename
            simp [hcond, isOkB, bind, Except.bind]
          · simp only [hz, Bool.false_eq_true, if_false]
            by_cases hcv : (ds.squeeze true).containsVar "error" = true
            · simp only [hcv, if_true]
              have hcond : (([("data", n), ("error", n ++ "_error")]).all
                  (fun p => ((ds.squeeze true).getVar p.1).isSome
                    || (ds.squeeze true).hasDim p.1)) = false := by
                simp [hdata, hdim]
              unfold Dataset.rename
              simp [hcond, isOkB, bind, Except.bind]
            · simp only [Bool.not_eq_true] at hcv
              simp only [hcv, Bool.false_eq_true, if_false]
              have hcond : (([("data", if n = "time" then n ++ "_" else n)]).all
                  (fun p => ((ds.squeeze true).getVar p.1).isSome
                    || (ds.squeeze true).hasDim p.1)) = false := by
                simp [hdata, hdim]
              unfold Dataset.rename
              simp [hcond, isOkB, bind, Except.bind]
  · intro name dv ev hname hkeys hcu hcn
    obtain ⟨ds', hok, _⟩ := standardize_shape_spec source ds name dv ev hname hkeys hcu hcn
    rw [hok]
    rfl

/-- Witness for C6 as amended: failure on `dsOnlyData` (no `error`),
failure on `dsNoData` (no `data`), success on `dsGood` (name attribute
and both variables present). -/
theorem claim_C6_amended_witness :
    isOkB (standardizeSignalDataset "src" dsOnlyData) = false ∧
    isOkB (standardizeSignalDataset "src" dsNoData) = false ∧
    isOkB (standardizeSignalDataset "src" dsGood) = true :=
  ⟨(claim_C6_amended "src" dsOnlyData).1 (by decide),
   (claim_C6_amended "src" dsNoData).2.1 (by decide) (by decide),
   (claim_C6_amended "src" dsGood).2.2 "sig"
     ⟨["t"], [2], [.i 1, .i 2], []⟩ ⟨["t"], [2], [.i 3, .i 4], []⟩
     (by decide) (by decide) (by decide) (by decide)⟩


/-! ## C4: RenameDimensions is not idempotent when a rename applies -/

/-- Zipping the two projections of a pair list recovers the list. -/
theorem zipFstSnd (l : List (α × β)) : (l.map Prod.fst).zip (l.map Prod.snd) = l := by
  rw [← List.unzip_fst, ← List.unzip_snd, List.zip_unzip]

theorem dimSizes_squeezeDims (killed : List String) (v : Variable) :
    (v.squeezeDims killed).dimSizes =
      v.dimSizes.filter (fun p => !(killed.contains p.1)) := by
  unfold Variable.squeezeDims Variable.dimSizes
  simp only []
  exact zipFstSnd _

theorem squeezeDims_nil_of_squeezeDims (killed : List String) (v : Variable) :
    (v.squeezeDims killed).squeezeDims [] = v.squeezeDims killed := by
  cases v with
  | mk d s dt a => simp [Variable.squeezeDims, Variable.dimSizes, zipFstSnd]

theorem filterMap_some_eq_map (g : α → β) (l : List α) :
    l.filterMap (fun a => some (g a)) = l.map g := by
  induction l with
  | nil => rfl
  | cons a t ih => simp [List.filterMap_cons, ih]

theorem squeeze_data_vars (ds : Dataset) (b : Bool) :
    (ds.squeeze b).data_vars = ds.data_vars.map (fun p => (p.1, p.2.squeezeDims
      ((ds.dimsList.filter (fun q => q.2 == 1)).map Prod.fst))) := rfl

theorem squeeze_coords_false (ds : Dataset) :
    (ds.squeeze false).coords = ds.coords.map (fun p => (p.1, p.2.squeezeDims
      ((ds.dimsList.filter (fun q => q.2 == 1)).map Prod.fst))) := by
  unfold Dataset.squeeze
  simp only [Bool.false_and, Bool.false_eq_true, if_false]
  exact filterMap_some_eq_map _ _

theorem dimsList_squeeze_false (ds : Dataset) :
    (ds.squeeze false).dimsList = ds.dimsList.filter
      (fun q => !(((ds.dimsList.filter (fun p => p.2 == 1)).map Prod.fst).contains q.1)) := by
  unfold Dataset.dimsList Dataset.allVars
  rw [squeeze_data_vars, squeeze_coords_false, ← List.map_append, List.flatMap_map]
  rw [List.filter_flatMap]
  have hfe : (fun p : String × Variable =>
      (p.2.squeezeDims ((ds.dimsList.filter (fun q => q.2 == 1)).map Prod.fst)).dimSizes) =
      (fun p : String × Variable => p.2.dimSizes.filter
        (fun q => !(((ds.dimsList.filter (fun p => p.2 == 1)).map Prod.fst).contains q.1))) :=
    funext (fun p => dimSizes_squeezeDims _ _)
  rw [hfe]
  rfl

theorem squeeze_eta (x : Dataset)
    (hk : ((x.dimsList.filter (fun p => p.2 == 1)).map Prod.fst) = [])
    (hdv : ∀ p ∈ x.data_vars, p.2.squeezeDims [] = p.2)
    (hco : ∀ p ∈ x.coords, p.2.squeezeDims [] = p.2) :
    x.squeeze false = x := by
  unfold Dataset.squeeze
  simp only []
  rw [hk]
  have h1 : x.data_vars.map (fun p => (p.1, p.2.squeezeDims [])) = x.data_vars := by
    have := List.map_congr_left (l := x.data_vars)
      (f := fun p : String × Variable => (p.1, p.2.squeezeDims []))
      (g := id) (fun p hp => by show (p.1, p.2.squeezeDims []) = p; rw [hdv p hp])
    rw [this, List.map_id]
  have h2 : x.coords.filterMap (fun p =>
      if false && (p.2.squeezeDims []).dims.isEmpty && !p.2.dims.isEmpty then none
      else some (p.1, p.2.squeezeDims [])) = x.coords := by
    simp only [Bool.false_and, Bool.false_eq_true, if_false]
    rw [filterMap_some_eq_map]
    have := List.map_congr_left (l := x.coords)
      (f := fun p : String × Variable => (p.1, p.2.squeezeDims []))
      (g := id) (fun p hp => by show (p.1, p.2.squeezeDims []) = p; rw [hco p hp])
    rw [this, List.map_id]
  rw [h1, h2]

theorem squeeze_squeeze (ds : Dataset) :
    (ds.squeeze false).squeeze false = ds.squeeze false := by
  have hk2 : ((((ds.squeeze false).dimsList).filter (fun p => p.2 == 1)).map Prod.fst) = [] := by
    rw [dimsList_squeeze_false, List.filter_filter]
    have hnil : (ds.dimsList.filter (fun a =>
        (a.2 == 1) &&
        (!(((ds.dimsList.filter (fun p => p.2 == 1)).map Prod.fst).contains a.1)))) = [] := by
      rw [List.filter_eq_nil_iff]
      intro a ha
      by_cases h1 : (a.2 == 1) = true
      · have hmem : a.1 ∈ (ds.dimsList.filter (fun p => p.2 == 1)).map Prod.fst :=
          List.mem_map.mpr ⟨a, List.mem_filter.mpr ⟨ha, h1⟩, rfl⟩
        have hcon : (((ds.dimsList.filter (fun p => p.2 == 1)).map Prod.fst).contains a.1) = true :=
          List.elem_iff.mpr hmem
        simp [hcon, h1]
        have h2 : a.2 = 1 := by simpa using h1
        rw [← h2]
        exact ha
      · simp [h1]
    rw [hnil]
    rfl
  apply squeeze_eta _ hk2
  · intro p hp
    rw [squeeze_data_vars] at hp
    obtain ⟨q, _, rfl⟩ := List.mem_map.mp hp
    exact squeezeDims_nil_of_squeezeDims _ _
  · intro p hp
    rw [squeeze_coords_false] at hp
    obtain ⟨q, _, rfl⟩ := List.mem_map.mp hp
    exact squeezeDims_nil_of_squeezeDims _ _

/-- A rename table mapping dataset `sig`'s axis `t` to `time`
(standing in for `mappings/dim_names.json`). -/
def tblC4 : List (String × List (String × String)) := [("sig", [("t", "time")])]

/-- A dataset named `sig` with one variable on axis `t` of size 2. -/
def dsC4 : Dataset :=
  { data_vars := [("v", ⟨["t"], [2], [.i 1, .i 2], []⟩)],
    coords := [], attrs := [("name", .str "sig")] }

/-- Counterexample to C4.  One application of RenameDimensions with
table `tblC4` succeeds on `dsC4` (renaming axis `t` to `time`), but a
second application to the result raises: the dataset's name is still a
key of the table, so the code calls `rename_dims({"t": "time"})` again,
and `t` is no longer a dimension — re-running after a successful rename
is an error, not a no-op. -/
theorem claim_C4_counterexample :
    isOkB (renameDimensions tblC4 dsC4) = true ∧
    (renameDimensions tblC4 dsC4).toOption.map
      (fun d => isOkB (renameDimensions tblC4 d)) = some false := by
  decide

/-- C4 as amended.  RenameDimensions is idempotent only for datasets
whose name is absent from the rename table: there the transform is just
the size-one squeeze, which is idempotent, so a second application
succeeds and returns the same dataset.  (For a dataset whose name is in
the table with a non-trivial dimension rename, the counterexample shows
the second application fails.) -/
theorem claim_C4_amended (table : List (String × List (String × String)))
    (ds : Dataset) (name : String)
    (hname : lookupL ds.attrs "name" = some (.str name))
    (habs : lookupL table name = none) :
    renameDimensions table ds = .ok (ds.squeeze false) ∧
    renameDimensions table (ds.squeeze false) = .ok (ds.squeeze false) := by
  constructor
  · unfold renameDimensions
    simp only []
    rw [hname]
    simp only []
    rw [habs]
  · unfold renameDimensions
    simp only []
    rw [squeeze_attrs, hname]
    simp only []
    rw [habs, squeeze_squeeze]

/-- A dataset whose name `other` is not in `tblC4`. -/
def dsOther : Dataset :=
  { data_vars := [("v", ⟨["t"], [2], [.i 1, .i 2], []⟩)],
    coords := [], attrs := [("name", .str "other")] }

/-- Witness for C4 as amended at `dsOther`, whose name is not in the
table. -/
theorem claim_C4_amended_witness :
    renameDimensions tblC4 dsOther = .ok (dsOther.squeeze false) ∧
    renameDimensions tblC4 (dsOther.squeeze false) = .ok (dsOther.squeeze false) :=
  claim_C4_amended tblC4 dsOther "other" (by decide) (by decide)

/-! ## C2: TensorizeChannels is lossless on stacked values -/

/-- Taking the i-th block of size n out of the concatenation of
equal-length blocks recovers the i-th block. -/
theorem flatten_block (ls : List (List Val)) (n i : Nat)
    (hlen : ∀ x ∈ ls, x.length = n) (hi : i < ls.length) :
    ((ls.flatten.drop (i * n)).take n) = ls.get ⟨i, hi⟩ := by
  induction ls generalizing i with
  | nil => exact absurd hi (Nat.not_lt_zero i)
  | cons x xs ih =>
    cases i with
    | zero =>
      simp only [Nat.zero_mul, List.drop_zero, List.flatten_cons]
      exact List.take_left' (hlen x (List.mem_cons_self x xs))
    | succ j =>
      have hx : x.length = n := hlen x (List.mem_cons_self x xs)
      have hm : (j + 1) * n = n + j * n := by ring
      simp only [List.flatten_cons]
      rw [hm, ← List.drop_drop, List.drop_left' hx]
      exact ih j (fun y hy => hlen y (List.mem_cons_of_mem x hy))
        (Nat.lt_of_succ_lt_succ hi)

/-- Looking up a list of present keys succeeds and returns the variables
in order. -/
theorem getChannels_ok (ds : Dataset) (keys : List String)
    (h : ∀ k ∈ keys, (ds.getVar k).isSome = true) :
    ∃ vs, getChannels ds keys = .ok vs ∧ vs.length = keys.length ∧
      ∀ i (hi : i < keys.length) (hi' : i < vs.length),
        ds.getVar (keys.get ⟨i, hi⟩) = some (vs.get ⟨i, hi'⟩) := by
  induction keys with
  | nil => exact ⟨[], rfl, rfl, fun i hi => absurd hi (Nat.not_lt_zero i)⟩
  | cons k rest ih =>
    have hk : (ds.getVar k).isSome = true := h k (List.mem_cons_self k rest)
    obtain ⟨v, hv⟩ : ∃ v, ds.getVar k = some v := by
      cases hg : ds.getVar k with
      | none => rw [hg] at hk; simp at hk
      | some v => exact ⟨v, rfl⟩
    obtain ⟨vs, hvs, hlen, hget⟩ := ih (fun q hq => h q (List.mem_cons_of_mem k hq))
    refine ⟨v :: vs, ?_, by simp [hlen], ?_⟩
    · unfold getChannels
      rw [hv, hvs]
      rfl
    · intro i hi hi'
      cases i with
      | zero => simpa using hv
      | succ j =>
        exact hget j (Nat.lt_of_succ_lt_succ hi) (Nat.lt_of_succ_lt_succ hi')

/-- C2.  For a dataset in which the group-key computation succeeds with
the deterministic numeric order `keys` (the hypothesis
`getGroupKeys t ds = .ok keys` also asserts that Python's sort performed
no int-versus-str comparison, which would raise `TypeError`), with at
least one match, the stem name not among the matches, and all matched
variables sharing dimensions `d0`, shape `s0` and flattened length `n`,
TensorizeChannels succeeds, the stem variable carries the new leading
axis of length `keys.length` over the shared dims, and slicing its
values at position `i` along the new axis reconstructs exactly the
values of the i-th matched original variable — so re-splitting the stem
by index recovers every original per-channel variable's data. -/
theorem claim_C2 (t : TensorizeChannels) (ds : Dataset)
    (keys : List String) (d0 : List String) (s0 : List Nat) (n : Nat)
    (hk : getGroupKeys t ds = .ok keys)
    (hne : keys ≠ [])
    (hstem : t.stem ∉ keys)
    (hch : ∀ k ∈ keys, ∃ v, ds.getVar k = some v ∧
      v.dims = d0 ∧ v.shape = s0 ∧ v.data.length = n) :
    ∃ ds' v, t.call ds = .ok ds' ∧
      lookupL ds'.data_vars t.stem = some v ∧
      v.dims = t.dim_name :: d0 ∧
      v.shape = keys.length :: s0 ∧
      ∀ i (hi : i < keys.length), ∃ w,
        ds.getVar (keys.get ⟨i, hi⟩) = some w ∧
        ((v.data.drop (i * n)).take n) = w.data := by
  obtain ⟨vs, hvs, hlen, hget⟩ := getChannels_ok ds keys
    (fun k hk' => by obtain ⟨v, hv, _⟩ := hch k hk'; simp [hv])
  have hmemvs : ∀ i (hi' : i < vs.length),
      (vs.get ⟨i, hi'⟩).dims = d0 ∧ (vs.get ⟨i, hi'⟩).shape = s0 ∧
      (vs.get ⟨i, hi'⟩).data.length = n := by
    intro i hi'
    have hi : i < keys.length := by rw [← hlen]; exact hi'
    have hg := hget i hi hi'
    obtain ⟨v, hv, hd, hs, hn⟩ := hch (keys.get ⟨i, hi⟩) (keys.get_mem i hi)
    rw [hv] at hg
    have hvx := Option.some.inj hg
    rw [← hvx]
    exact ⟨hd, hs, hn⟩
  have hmem : ∀ x ∈ vs, x.dims = d0 ∧ x.shape = s0 ∧ x.data.length = n := by
    intro x hx
    obtain ⟨j, hxj⟩ := List.mem_iff_get.mp hx
    have := hmemvs j j.isLt
    rw [← hxj]
    simpa using this
  cases vs with
  | nil =>
    exfalso
    apply hne
    cases hke : keys with
    | nil => rfl
    | cons a b => rw [hke] at hlen; simp at hlen
  | cons v0 rest =>
    have hv0 := hmem v0 (List.mem_cons_self v0 rest)
    have hcomb : combineNested t.dim_name (v0 :: rest) =
        .ok { dims := t.dim_name :: v0.dims,
              shape := (v0 :: rest).length :: v0.shape,
              data := ((v0 :: rest).map Variable.data).flatten,
              attrs := v0.attrs } := by
      simp only [combineNested]
      rw [if_pos]
      rw [List.all_eq_true]
      intro x hx
      have h1 := hmem x (List.mem_cons_of_mem v0 hx)
      simp [h1.1, h1.2.1, hv0.1, hv0.2.1]
    have hcont : (keys.contains t.stem) = false := by
      cases hcc : keys.contains t.stem with
      | false => rfl
      | true => exact absurd (List.elem_iff.mp hcc) hstem
    refine ⟨((if t.assign_coords = true then
        (ds.setVar t.stem (Variable.mk (t.dim_name :: v0.dims)
          ((v0 :: rest).length :: v0.shape)
          (((v0 :: rest).map Variable.data).flatten)
          v0.attrs)).setCoord t.dim_name
            (Variable.mk [t.dim_name] [keys.length] (keys.map Val.s) [])
      else
        ds.setVar t.stem (Variable.mk (t.dim_name :: v0.dims)
          ((v0 :: rest).length :: v0.shape)
          (((v0 :: rest).map Variable.data).flatten)
          v0.attrs)).dropVars keys),
      Variable.mk (t.dim_name :: v0.dims)
        ((v0 :: rest).length :: v0.shape)
        (((v0 :: rest).map Variable.data).flatten)
        v0.attrs, ?_, ?_, ?_, ?_, ?_⟩
    · unfold TensorizeChannels.call
      simp only []
      rw [hk]
      simp only [Except.bind, bind]
      rw [hvs]
      simp only [Except.bind, bind]
      rw [hcomb]
    · by_cases ha : t.assign_coords = true
      · simp only [ha, if_true]
        unfold Dataset.dropVars
        simp only []
        rw [lookupL_filter, hcont]
        simp only [Bool.false_eq_true, if_false]
        exact lookupL_setL_self _ _ _
      · simp only [ha, Bool.false_eq_true, if_false]
        unfold Dataset.dropVars
        simp only []
        rw [lookupL_filter, hcont]
        simp only [Bool.false_eq_true, if_false]
        exact lookupL_setL_self _ _ _
    · rw [hv0.1]
    · rw [hv0.2.1, hlen]
    · intro i hi
      have hi' : i < (v0 :: rest).length := by rw [hlen]; exact hi
      refine ⟨(v0 :: rest).get ⟨i, hi'⟩, hget i hi hi', ?_⟩
      have hlens : ∀ x ∈ (v0 :: rest).map Variable.data, x.length = n := by
        intro x hx
        obtain ⟨y, hy, rfl⟩ := List.mem_map.mp hx
        exact (hmem y hy).2.2
      have hlt : i < ((v0 :: rest).map Variable.data).length := by
        rw [List.length_map]
        exact hi'
      rw [flatten_block ((v0 :: rest).map Variable.data) n i hlens hlt]
      exact List.get_map Variable.data

/-- A dataset with channels `x1`, `x2` for stem `x`. -/
def dsC2 : Dataset :=
  { data_vars := [("x1", ⟨["t"], [2], [.i 1, .i 2], []⟩),
                  ("x2", ⟨["t"], [2], [.i 3, .i 4], []⟩)],
    coords := [], attrs := [] }

/-- Witness for C2: stacking `x1`, `x2` of `dsC2` and re-slicing
recovers both channels. -/
theorem claim_C2_witness :
    ∃ ds' v, (TensorizeChannels.ofStem "x").call dsC2 = .ok ds' ∧
      lookupL ds'.data_vars (TensorizeChannels.ofStem "x").stem = some v ∧
      v.dims = (TensorizeChannels.ofStem "x").dim_name :: ["t"] ∧
      v.shape = (["x1", "x2"] : List String).length :: [2] ∧
      ∀ i (hi : i < (["x1", "x2"] : List String).length), ∃ w,
        dsC2.getVar ((["x1", "x2"] : List String).get ⟨i, hi⟩) = some w ∧
        ((v.data.drop (i * 2)).take 2) = w.data :=
  claim_C2 (TensorizeChannels.ofStem "x") dsC2 ["x1", "x2"] ["t"] [2] 2
    (by decide) (by decide) (by decide)
    (by
      intro k hk
      fin_cases hk
      · exact ⟨⟨["t"], [2], [.i 1, .i 2], []⟩, by decide⟩
      · exact ⟨⟨["t"], [2], [.i 3, .i 4], []⟩, by decide⟩)

/-! ## C9: MergeDatasets unions disjoint variables and clears attributes -/

/-- Whether the variable names of two datasets are disjoint. -/
def disjB (a b : Dataset) : Bool :=
  a.varNames.all (fun k => !(b.varNames.contains k))

/-- Mergeability of two datasets: agreeing dimension sizes and disjoint
variable names. -/
def compatB (a b : Dataset) : Bool :=
  sizesAgree a b && disjB a b

/-- Dimension pairs of a field-wise concatenation of two datasets. -/
theorem mem_dimsList_append (a b : Dataset) (attrs : List (String × AttrVal))
    (p : String × Nat) :
    p ∈ (Dataset.mk (a.data_vars ++ b.data_vars) (a.coords ++ b.coords) attrs).dimsList ↔
      p ∈ a.dimsList ∨ p ∈ b.dimsList := by
  simp only [Dataset.dimsList, Dataset.allVars, List.mem_flatMap, List.mem_append]
  constructor
  · rintro ⟨w, hw, hpw⟩
    rcases hw with (hw | hw) | (hw | hw)
    · exact Or.inl ⟨w, Or.inl hw, hpw⟩
    · exact Or.inr ⟨w, Or.inl hw, hpw⟩
    · exact Or.inl ⟨w, Or.inr hw, hpw⟩
    · exact Or.inr ⟨w, Or.inr hw, hpw⟩
  · rintro (⟨w, hw | hw, hpw⟩ | ⟨w, hw | hw, hpw⟩)
    · exact ⟨w, Or.inl (Or.inl hw), hpw⟩
    · exact ⟨w, Or.inr (Or.inl hw), hpw⟩
    · exact ⟨w, Or.inl (Or.inr hw), hpw⟩
    · exact ⟨w, Or.inr (Or.inr hw), hpw⟩

/-- Variable names of a field-wise concatenation of two datasets. -/
theorem mem_varNames_append (a b : Dataset) (attrs : List (String × AttrVal))
    (k : String) :
    k ∈ (Dataset.mk (a.data_vars ++ b.data_vars) (a.coords ++ b.coords) attrs).varNames ↔
      k ∈ a.varNames ∨ k ∈ b.varNames := by
  unfold Dataset.varNames
  simp only [List.map_append, List.mem_append]
  tauto

/-- Pointwise reading of `sizesAgree`. -/
theorem sizesAgree_iff (a b : Dataset) :
    sizesAgree a b = true ↔
      ∀ p ∈ a.dimsList, ∀ q ∈ b.dimsList, p.1 = q.1 → p.2 = q.2 := by
  unfold sizesAgree
  rw [List.all_eq_true]
  constructor
  · intro h p hp q hq he
    have := h p hp
    rw [List.all_eq_true] at this
    have h2 := this q hq
    simp [he] at h2
    exact h2
  · intro h p hp
    rw [List.all_eq_true]
    intro q hq
    by_cases he : p.1 = q.1
    · simp [he, h p hp q hq he]
    · simp [he]

/-- Pointwise reading of `disjB`. -/
theorem disjB_iff (a b : Dataset) :
    disjB a b = true ↔ ∀ k ∈ a.varNames, k ∉ b.varNames := by
  unfold disjB
  rw [List.all_eq_true]
  constructor
  · intro h k hk hkb
    have hthis := h k hk
    have hc : b.varNames.contains k = true := List.elem_iff.mpr hkb
    rw [hc] at hthis
    simp at hthis
  · intro h k hk
    cases hc : b.varNames.contains k with
    | false => rfl
    | true => exact absurd (List.elem_iff.mp hc) (h k hk)

/-- Mergeability with a third dataset is preserved by merging two
mergeable datasets. -/
theorem compatB_append (a b c : Dataset) (attrs : List (String × AttrVal))
    (h1 : compatB a c = true) (h2 : compatB b c = true) :
    compatB (Dataset.mk (a.data_vars ++ b.data_vars) (a.coords ++ b.coords) attrs) c = true := by
  unfold compatB at h1 h2 ⊢
  rw [Bool.and_eq_true] at h1 h2
  rw [Bool.and_eq_true]
  constructor
  · rw [sizesAgree_iff]
    intro p hp q hq he
    rcases (mem_dimsList_append a b attrs p).mp hp with hpa | hpb
    · exact (sizesAgree_iff a c).mp h1.1 p hpa q hq he
    · exact (sizesAgree_iff b c).mp h2.1 p hpb q hq he
  · rw [disjB_iff]
    intro k hk
    rcases (mem_varNames_append a b attrs k).mp hk with hka | hkb
    · exact (disjB_iff a c).mp h1.2 k hka
    · exact (disjB_iff b c).mp h2.2 k hkb

/-- `addVar` under a fresh key appends the entry. -/
theorem addVar_none (xs : List (String × Variable)) (p : String × Variable)
    (hp : lookupL xs p.1 = none) : addVar xs p = .ok (xs ++ [p]) := by
  unfold addVar
  rw [hp]

/-- Folding `addVar` over entries with fresh, distinct keys appends them
all in order. -/
theorem foldlM_addVar_append (ys : List (String × Variable)) :
    ∀ xs, (∀ p ∈ ys, lookupL xs p.1 = none) → (ys.map Prod.fst).Nodup →
    ys.foldlM addVar xs = .ok (xs ++ ys) := by
  induction ys with
  | nil =>
    intro xs _ _
    simp
    rfl
  | cons p rest ih =>
    intro xs h1 h2
    rw [List.foldlM_cons]
    have hp := h1 p (List.mem_cons_self p rest)
    rw [addVar_none xs p hp]
    simp only [bind, Except.bind]
    rw [List.map_cons, List.nodup_cons] at h2
    have h1' : ∀ q ∈ rest, lookupL (xs ++ [p]) q.1 = none := by
      intro q hq
      rw [lookupL_append, h1 q (List.mem_cons_of_mem p hq)]
      have hne : ¬(p.1 = q.1) := by
        intro he
        exact h2.1 (he ▸ List.mem_map.mpr ⟨q, hq, rfl⟩)
      simp [lookupL, hne]
    rw [ih (xs ++ [p]) h1' h2.2]
    simp

/-- Merging a dataset with disjoint variable names and agreeing sizes
concatenates its variables and coordinates. -/
theorem mergeTwo_append (a b : Dataset)
    (hc : compatB a b = true) (hndb : b.varNames.Nodup) :
    mergeTwo a b =
      .ok (Dataset.mk (a.data_vars ++ b.data_vars) (a.coords ++ b.coords) a.attrs) := by
  rw [compatB, Bool.and_eq_true] at hc
  obtain ⟨hsz, hdis⟩ := hc
  have hdis' := (disjB_iff a b).mp hdis
  have hcross1 : (b.data_vars.any (fun p => (lookupL a.coords p.1).isSome)) = false := by
    rw [Bool.eq_false_iff]
    intro hany
    obtain ⟨p, hp, hsome⟩ := List.any_eq_true.mp hany
    have hka : p.1 ∈ a.varNames := by
      unfold Dataset.varNames
      rw [List.mem_append]
      exact Or.inr ((lookupL_isSome_iff _ _).mp hsome)
    have hkb : p.1 ∈ b.varNames := by
      unfold Dataset.varNames
      rw [List.mem_append]
      exact Or.inl (List.mem_map.mpr ⟨p, hp, rfl⟩)
    exact hdis' p.1 hka hkb
  have hcross2 : (b.coords.any (fun p => (lookupL a.data_vars p.1).isSome)) = false := by
    rw [Bool.eq_false_iff]
    intro hany
    obtain ⟨p, hp, hsome⟩ := List.any_eq_true.mp hany
    have hka : p.1 ∈ a.varNames := by
      unfold Dataset.varNames
      rw [List.mem_append]
      exact Or.inl ((lookupL_isSome_iff _ _).mp hsome)
    have hkb : p.1 ∈ b.varNames := by
      unfold Dataset.varNames
      rw [List.mem_append]
      exact Or.inr (List.mem_map.mpr ⟨p, hp, rfl⟩)
    exact hdis' p.1 hka hkb
  have hnd1 : (b.data_vars.map Prod.fst).Nodup := by
    have := hndb
    unfold Dataset.varNames at this
    exact (List.nodup_append.mp this).1
  have hnd2 : (b.coords.map Prod.fst).Nodup := by
    have := hndb
    unfold Dataset.varNames at this
    exact (List.nodup_append.mp this).2.1
  have hl1 : ∀ p ∈ b.data_vars, lookupL a.data_vars p.1 = none := by
    intro p hp
    rw [lookupL_eq_none_iff]
    intro hmem
    exact hdis' p.1
      (by unfold Dataset.varNames; rw [List.mem_append]; exact Or.inl hmem)
      (by unfold Dataset.varNames; rw [List.mem_append];
          exact Or.inl (List.mem_map.mpr ⟨p, hp, rfl⟩))
  have hl2 : ∀ p ∈ b.coords, lookupL a.coords p.1 = none := by
    intro p hp
    rw [lookupL_eq_none_iff]
    intro hmem
    exact hdis' p.1
      (by unfold Dataset.varNames; rw [List.mem_append]; exact Or.inr hmem)
      (by unfold Dataset.varNames; rw [List.mem_append];
          exact Or.inr (List.mem_map.mpr ⟨p, hp, rfl⟩))
  unfold mergeTwo
  rw [hsz]
  simp only [Bool.not_true, Bool.false_eq_true, if_false]
  rw [hcross1, hcross2]
  simp only [Bool.or_self, Bool.false_eq_true, if_false]
  rw [foldlM_addVar_append b.data_vars a.data_vars hl1 hnd1]
  simp only [bind, Except.bind]
  rw [foldlM_addVar_append b.coords a.coords hl2 hnd2]

/-- The `xr.merge` fold over pairwise-mergeable datasets concatenates all
their variables and coordinates. -/
theorem mergeFold_ok (l : List Dataset) :
    ∀ acc, (∀ d ∈ l, d.varNames.Nodup) → (∀ d ∈ l, compatB acc d = true) →
    List.Pairwise (fun a b => compatB a b = true) l →
    l.foldlM mergeTwo acc =
      .ok (Dataset.mk (acc.data_vars ++ l.flatMap Dataset.data_vars)
        (acc.coords ++ l.flatMap Dataset.coords) acc.attrs) := by
  induction l with
  | nil =>
    intro acc _ _ _
    simp
    rfl
  | cons d rest ih =>
    intro acc hnd hacc hpw
    rw [List.foldlM_cons]
    rw [mergeTwo_append acc d (hacc d (List.mem_cons_self d rest))
      (hnd d (List.mem_cons_self d rest))]
    simp only [bind, Except.bind]
    rw [List.pairwise_cons] at hpw
    rw [ih (Dataset.mk (acc.data_vars ++ d.data_vars) (acc.coords ++ d.coords) acc.attrs)
      (fun e he => hnd e (List.mem_cons_of_mem d he))
      (fun e he => compatB_append acc d e acc.attrs
        (hacc e (List.mem_cons_of_mem d he)) (hpw.1 e he))
      hpw.2]
    simp [List.flatMap_cons, List.append_assoc]

/-- C9.  For a collection of datasets with (internally duplicate-free
and) pairwise-disjoint variable names and agreeing dimension sizes,
MergeDatasets succeeds with a dataset whose variable set is the union
(concatenation) of all input variable sets, whose dataset-level
attributes are empty, and in which each input variable — with its
per-variable attributes — is retained verbatim. -/
theorem claim_C9 (l : List (String × Dataset))
    (hnd : ∀ p ∈ l, p.2.varNames.Nodup)
    (hpw : List.Pairwise (fun a b => compatB a.2 b.2 = true) l) :
    ∃ ds', mergeDatasets l = .ok ds' ∧
      ds'.data_vars = (l.map Prod.snd).flatMap Dataset.data_vars ∧
      ds'.coords = (l.map Prod.snd).flatMap Dataset.coords ∧
      ds'.attrs = [] ∧
      ∀ p ∈ l, ∀ q ∈ p.2.data_vars, q ∈ ds'.data_vars := by
  unfold mergeDatasets
  have hfold : l.foldlM (fun acc p => mergeTwo acc p.2) emptyDataset =
      (l.map Prod.snd).foldlM mergeTwo emptyDataset := by
    rw [List.foldlM_map]
  rw [hfold]
  rw [mergeFold_ok (l.map Prod.snd) emptyDataset
    (by intro d hd; obtain ⟨p, hp, rfl⟩ := List.mem_map.mp hd; exact hnd p hp)
    (fun d _ => rfl)
    ((List.pairwise_map).mpr hpw)]
  simp only [bind, Except.bind]
  refine ⟨_, rfl, ?_, ?_, rfl, ?_⟩
  · show emptyDataset.data_vars ++ (l.map Prod.snd).flatMap Dataset.data_vars = _
    simp [emptyDataset]
  · show emptyDataset.coords ++ (l.map Prod.snd).flatMap Dataset.coords = _
    simp [emptyDataset]
  · intro p hp q hq
    show q ∈ emptyDataset.data_vars ++ (l.map Prod.snd).flatMap Dataset.data_vars
    rw [List.mem_append]
    exact Or.inr (List.mem_flatMap.mpr ⟨p.2, List.mem_map.mpr ⟨p, hp, rfl⟩, hq⟩)

/-- A one-variable dataset defining `a`, with per-variable attributes. -/
def dsA : Dataset :=
  { data_vars := [("a", ⟨["t"], [2], [.i 1, .i 2], [("units", .str "V")]⟩)],
    coords := [], attrs := [("name", .str "src/a")] }

/-- A one-variable dataset defining `b`, disjoint from `dsA`. -/
def dsB : Dataset :=
  { data_vars := [("b", ⟨["t"], [2], [.i 3, .i 4], [("units", .str "A")]⟩)],
    coords := [], attrs := [("name", .str "src/b")] }

/-- Witness for C9 at the two-entry collection of `dsA` and `dsB`. -/
theorem claim_C9_witness :
    ∃ ds', mergeDatasets [("a", dsA), ("b", dsB)] = .ok ds' ∧
      ds'.data_vars = (([("a", dsA), ("b", dsB)] :
        List (String × Dataset)).map Prod.snd).flatMap Dataset.data_vars ∧
      ds'.coords = (([("a", dsA), ("b", dsB)] :
        List (String × Dataset)).map Prod.snd).flatMap Dataset.coords ∧
      ds'.attrs = [] ∧
      ∀ p ∈ ([("a", dsA), ("b", dsB)] : List (String × Dataset)),
        ∀ q ∈ p.2.data_vars, q ∈ ds'.data_vars :=
  claim_C9 [("a", dsA), ("b", dsB)] (by decide) (by decide)
